import Mathlib

/-!
Verification development for the custom-element bridge in `src/index.ts` of
preact-typed-custom-element.

The development shallowly embeds the bridge logic: JS runtime values, the
`toCamelCase` helper, the JS-object prop maps, the light-DOM projector
`toVdom` (with its `Slot` wrapping), the external `cloneElement` boundary,
and the element lifecycle callbacks (`connectedCallback`,
`attributeChangedCallback`, `disconnectedCallback`) together with the
per-name property accessor pair installed by `register`.

External collaborators (the rendering engine, the DOM host) are modelled at
their interface boundary: `render`/`hydrate` install a tree at the root,
the context-discovery event is a parameter, and DOM nodes are an inductive
snapshot type.
-/

namespace PreactCE

/-- JS runtime values as observed by the bridge.  A number is carried
together with its `String(v)` coercion (only that coercion is ever observed
by this code); `jsObj` stands for any non-primitive value, tagged so that
distinct objects can be told apart. -/
inductive JsVal where
  | jsNull
  | jsUndefined
  | jsStr (s : String)
  | jsBool (b : Bool)
  | jsNum (coercion : String)
  | jsObj (id : Nat)
deriving DecidableEq, Repr

/-- JS `typeof v`. -/
def typeofStr : JsVal → String
  | .jsNull => "object"
  | .jsUndefined => "undefined"
  | .jsStr _ => "string"
  | .jsBool _ => "boolean"
  | .jsNum _ => "number"
  | .jsObj _ => "object"

/-- JS `String(v)`. -/
def jsString : JsVal → String
  | .jsNull => "null"
  | .jsUndefined => "undefined"
  | .jsStr s => s
  | .jsBool b => if b then "true" else "false"
  | .jsNum c => c
  | .jsObj _ => "[object Object]"

/-- The property setter's reflection guard, literally
`v == null || ['string', 'boolean', 'number'].includes(typeof v)`
(loose `== null` is true exactly for `null` and `undefined`). -/
def reflectsToAttribute (v : JsVal) : Bool :=
  v = JsVal.jsNull ∨ v = JsVal.jsUndefined ∨
    (["string", "boolean", "number"].contains (typeofStr v))

/-- The test `newValue == null ? undefined : newValue` in `attributeChangedCallback`. -/
def normalizeNull (v : JsVal) : JsVal :=
  if v = .jsNull ∨ v = .jsUndefined then .jsUndefined else v

/-- JS `s.toLowerCase()` (ASCII, which covers HTML node names). -/
def strToLower (s : String) : String :=
  ⟨s.data.map Char.toLower⟩

/-- JS regex `\w`: `[A-Za-z0-9_]`. -/
def isWordChar (c : Char) : Bool :=
  c.isAlpha || c.isDigit || c = '_'

/-- Character-list form of the source's global-regex replace in
`toCamelCase` (hyphen followed by a word character, replaced by the
upper-cased word character): a left-to-right scan. -/
def camelList : List Char → List Char
  | [] => []
  | '-' :: c :: rest =>
      if isWordChar c then c.toUpper :: camelList rest
      else '-' :: camelList (c :: rest)
  | c :: rest => c :: camelList rest

/-- The function `toCamelCase` from the source. -/
def toCamelCase (s : String) : String :=
  ⟨camelList s.data⟩

/-- JS object property write `m[k] = v`: replace in place if the key is
present (preserving key order), else append. -/
def objSet {α : Type} : List (String × α) → String → α → List (String × α)
  | [], k, v => [(k, v)]
  | (k1, v1) :: rest, k, v =>
      if k1 = k then (k, v) :: rest else (k1, v1) :: objSet rest k v

/-- JS object property read `m[k]` (`none` models `undefined`). -/
def objGet {α : Type} : List (String × α) → String → Option α
  | [], _ => none
  | (k1, v) :: rest, k => if k1 = k then some v else objGet rest k

/-- The virtual-DOM node type slot: an HTML tag name, the `Slot`
micro-component, the `ContextProvider` micro-component, or the registered
component itself. -/
inductive VTag where
  | htmlTag (s : String)
  | slotComp
  | contextProvider
  | component
deriving DecidableEq, Repr

mutual
/-- Virtual-DOM trees as produced by this bridge.  `vnull` is a JS `null`
child, `vtext` a string child, `vhole` an unassigned sparse-array slot in a
children array (both `vnull` and `vhole` are render-inert), and `velem` is
an `h(tag, props, children)` node. -/
inductive VTree where
  | vnull
  | vhole
  | vtext (s : String)
  | velem (tag : VTag) (props : List (String × PVal)) (children : List VTree)

/-- A prop value: a JS value or a nested virtual-DOM node (slot wrappers
are installed into prop maps). -/
inductive PVal where
  | pv (v : JsVal)
  | pnode (t : VTree)
end

/-- The named slot-forwarder wrapper `h(Slot, { name }, child)`. -/
def slotWrapOne (name : String) (child : VTree) : VTree :=
  .velem .slotComp [("name", .pv (.jsStr name))] [child]

/-- The prop map of a `velem` node (`vnode.props`). -/
def vtreeProps : VTree → List (String × PVal)
  | .velem _ p _ => p
  | _ => []

/-- A snapshot of a host DOM node.  `textComment` is a node with
`nodeType === 3` carrying its character data; `element` is a node of
`nodeType === 1` with its `nodeName`, attribute list and child nodes;
`other` is any other node kind. -/
inductive DomNode where
  | textComment (data : String)
  | element (nodeName : String) (attributes : List (String × String)) (childNodes : List DomNode)
  | other

/-- The reflected `node.slot` of a DOM node: for elements, the value of the
`slot` attribute (empty string if absent); `undefined` for non-elements,
which the source's truthiness test treats like the empty string. -/
def domSlot : DomNode → String
  | .element _ attrs _ => (objGet attrs "slot").getD ""
  | _ => ""

/-- The attribute-copy loop of `toVdom`: for each attribute whose name is
not literally `slot`, write the value under the literal name and then under
its camelCase equivalent. -/
def addAttrs : List (String × String) → List (String × PVal) → List (String × PVal)
  | [], m => m
  | (n, v) :: rest, m =>
      if n = "slot" then addAttrs rest m
      else
        addAttrs rest (objSet (objSet m n (.pv (.jsStr v))) (toCamelCase n) (.pv (.jsStr v)))

mutual
/-- The light-DOM projector `toVdom(element, nodeName)`.  `nodeName` is
`null` (`none`) on recursive calls and the registered component on the
topmost call; only the topmost call wraps its children array in an unnamed
`Slot`. -/
def toVdom : DomNode → Option VTag → VTree
  | .textComment data, _ => .vtext data
  | .other, _ => .vnull
  | .element nodeName attrs cns, tag =>
      let props := addSlotProps cns (addAttrs attrs [])
      match tag with
      | some tg => .velem tg props [.velem .slotComp [] (projectChildren cns)]
      | none => .velem (.htmlTag (strToLower nodeName)) props (projectChildren cns)

/-- The children array built by the child loop `children[i] = vnode`:
slotted children are never assigned, leaving a sparse hole at their index. -/
def projectChildren : List DomNode → List VTree
  | [] => []
  | c :: rest =>
      (if domSlot c ≠ "" then VTree.vhole else toVdom c none) :: projectChildren rest

/-- The slot-routing part of the child loop, which runs from the last child
down to the first: a child with a non-empty slot name is wrapped in a named
`Slot` and written into the parent's prop map under that name (so the
first — smallest-index — child with a given slot name wins). -/
def addSlotProps : List DomNode → List (String × PVal) → List (String × PVal)
  | [], m => m
  | c :: rest, m =>
      let m1 := addSlotProps rest m
      if domSlot c ≠ "" then
        objSet m1 (domSlot c) (.pnode (slotWrapOne (domSlot c) (toVdom c none)))
      else m1
end

/-- The prop map `toVdom` builds for an element node: the attribute copies
first, then the slot-routing writes on top. -/
def toVdomProps (attrs : List (String × String)) (cns : List DomNode) :
    List (String × PVal) :=
  addSlotProps cns (addAttrs attrs [])

/-- Shallow prop merge: the override keys replace wholesale, other props
are preserved (the `cloneElement` boundary contract of the rendering
engine, §6 of the design). -/
def mergeProps (p delta : List (String × PVal)) : List (String × PVal) :=
  delta.foldl (fun m q => objSet m q.1 q.2) p

/-- The rendering engine's `cloneElement(vnode, props)` at its interface
boundary: a shallow clone of the node with the prop overrides merged in and
the children kept. -/
def cloneElement : VTree → List (String × PVal) → VTree
  | .velem tg p c, delta => .velem tg (mergeProps p delta) c
  | t, _ => t

/-- The prop delta built by `attributeChangedCallback`:
`props[name] = v; props[toCamelCase(name)] = v` on a fresh object. -/
def attrDelta (name : String) (v : JsVal) : List (String × PVal) :=
  objSet (objSet [] name (.pv v)) (toCamelCase name) (.pv v)

/-- The per-instance bookkeeping of a `PreactElement`:
`vdom` is `_vdom` (the last tree handed to the rendering engine, `none`
before the first render and after teardown), `props` is `_props` (the
pending pre-connection property writes, `none` when still undefined),
`attrs` is the host element's attribute list, and `rootContent` models
what the rendering engine currently has mounted at `_root` (`none` for an
empty root). -/
structure ElementState where
  vdom : Option VTree
  props : Option (List (String × PVal))
  attrs : List (String × String)
  rootContent : Option VTree

/-- The callback `attributeChangedCallback(name, oldValue, newValue)`: a no-op before
the first render; otherwise normalizes the host's `null` removal sentinel
to `undefined`, builds the two-key prop delta, merges it into `_vdom` via
`cloneElement`, and synchronously renders the new tree into `_root`. -/
def attributeChangedCallback (st : ElementState) (name : String)
    (_oldValue newValue : JsVal) : ElementState :=
  match st.vdom with
  | none => st
  | some t =>
      let nv := normalizeNull newValue
      let t1 := cloneElement t (attrDelta name nv)
      { st with vdom := some t1, rootContent := some t1 }

/-- The callback `connectedCallback()`: retrieves the ambient context by a synchronous
event dispatch (modelled by the `context` parameter — `jsUndefined` when no
ancestor intercepts), builds
`h(ContextProvider, { ...this._props, context }, toVdom(this, component))`
and hands it to `render`/`hydrate` (both modelled as installing the tree at
the root).  `nodeName` and `childNodes` are the host element's current DOM
snapshot; its attributes are the state's attribute list. -/
def connectedCallback (st : ElementState) (nodeName : String)
    (childNodes : List DomNode) (context : JsVal) : ElementState :=
  let spread := (st.props.getD []).foldl (fun m q => objSet m q.1 q.2) []
  let cpProps := objSet spread "context" (.pv context)
  let tree : VTree :=
    .velem .contextProvider cpProps
      [toVdom (.element nodeName st.attrs childNodes) (some .component)]
  { st with vdom := some tree, rootContent := some tree }

/-- The callback `disconnectedCallback()`: `render(this._vdom = null, this._root)` —
clears the stored tree and renders an empty tree into the root. -/
def disconnectedCallback (st : ElementState) : ElementState :=
  { st with vdom := none, rootContent := none }

/-- The accessor getter installed for each declared property name:
`this._vdom ? this._vdom.props[name] : this._props?.[name]`. -/
def propertyGet (st : ElementState) (name : String) : Option PVal :=
  match st.vdom with
  | some t => objGet (vtreeProps t) name
  | none => objGet (st.props.getD []) name

/-- The accessor setter installed for each declared property name: if a
render has occurred, route through
`attributeChangedCallback(String(name), null, v)`; else store into
`_props` (creating it if absent).  Afterwards, if the value is nullish or
a primitive string/boolean/number, mirror it onto the DOM attribute via
`setAttribute(String(name), String(v))`. -/
def propertySet (st : ElementState) (name : String) (v : JsVal) : ElementState :=
  let st1 :=
    match st.vdom with
    | some _ => attributeChangedCallback st name .jsNull v
    | none => { st with props := some (objSet (st.props.getD []) name (.pv v)) }
  if reflectsToAttribute v then
    { st1 with attrs := objSet st1.attrs name (jsString v) }
  else st1

/-- A newly constructed instance that has received pending property writes
and attributes but has never rendered. -/
def freshState (props : Option (List (String × PVal)))
    (attrs : List (String × String)) : ElementState :=
  { vdom := none, props := props, attrs := attrs, rootContent := none }

/-- Line 72 of the source: `static observedAttributes = propNames` — the
class's observed-attribute list is the explicit argument, whatever it is
(`none` models an omitted argument). -/
def observedAttributes (propNames : Option (List String)) : Option (List String) :=
  propNames

/-- Lines 82-83 of the source:
`propNames || (PreactElement.observedAttributes ...)` — JS `||` falls back
exactly when the left side is undefined (an empty array is truthy). -/
def propsToDefine (propNames : Option (List String)) : Option (List String) :=
  match propNames with
  | some l => some l
  | none => observedAttributes propNames

/-- Modelled from the spec: the PropName-set derivation the specification
requires of `register` when `propNames` is omitted — "derived from the
definition's declared observed-attribute list, else from its prop-type
map's keys (in that priority)".  This derivation is absent from the
source, which never reads `Component.observedAttributes` or
`Component.propTypes`. -/
def specDerivedPropNames (propNames obsAttrs propTypeKeys : Option (List String)) :
    Option (List String) :=
  match propNames with
  | some l => some l
  | none =>
      match obsAttrs with
      | some l => some l
      | none => propTypeKeys

example : toCamelCase "data-x" = "dataX" := rfl
example : toCamelCase "foo--bar" = "foo-Bar" := rfl
example : toVdom (.textComment "hi") none = .vtext "hi" := rfl
example :
    toVdom (.element "SPAN" [("data-x", "1")] []) none
      = .velem (.htmlTag "span") [("data-x", .pv (.jsStr "1")), ("dataX", .pv (.jsStr "1"))] [] := rfl

theorem objGet_objSet {α : Type} (m : List (String × α)) (k k1 : String) (v : α) :
    objGet (objSet m k v) k1 = if k1 = k then some v else objGet m k1 := by
  induction m with
  | nil =>
      simp only [objSet, objGet]
      by_cases h : k = k1
      · rw [if_pos h, if_pos h.symm]
      · rw [if_neg h, if_neg (Ne.symm h)]
  | cons p rest ih =>
      obtain ⟨k2, v2⟩ := p
      simp only [objSet]
      by_cases h2 : k2 = k
      · rw [if_pos h2]
        simp only [objGet]
        by_cases h1 : k = k1
        · rw [if_pos h1, if_pos h1.symm]
        · rw [if_neg h1, if_neg (Ne.symm h1), if_neg (fun he => h1 (h2.symm.trans he))]
      · rw [if_neg h2]
        simp only [objGet]
        by_cases h1 : k2 = k1
        · rw [if_pos h1, if_pos h1, if_neg (fun he : k1 = k => h2 (h1.trans he))]
        · rw [if_neg h1, if_neg h1, ih]

theorem objGet_objSet_same {α : Type} (m : List (String × α)) (k : String) (v : α) :
    objGet (objSet m k v) k = some v := by
  simp [objGet_objSet]

theorem objGet_objSet_ne {α : Type} (m : List (String × α)) (k k1 : String) (v : α)
    (h : k1 ≠ k) : objGet (objSet m k v) k1 = objGet m k1 := by
  simp [objGet_objSet, h]

theorem isSome_objGet_objSet {α : Type} (m : List (String × α)) (k k1 : String) (v : α)
    (h : (objGet m k1).isSome) : (objGet (objSet m k v) k1).isSome := by
  by_cases hk : k1 = k
  · subst hk; simp [objGet_objSet_same]
  · rwa [objGet_objSet_ne m k k1 v hk]

/-- If no attribute in the list writes the key `k` (each is either named
`slot` or writes two other keys), the attribute-copy loop leaves `k`
untouched. -/
theorem addAttrs_objGet_skip (attrs : List (String × String))
    (m : List (String × PVal)) (k : String)
    (h : ∀ p ∈ attrs, p.1 = "slot" ∨ (p.1 ≠ k ∧ toCamelCase p.1 ≠ k)) :
    objGet (addAttrs attrs m) k = objGet m k := by
  induction attrs generalizing m with
  | nil => rfl
  | cons p rest ih =>
      obtain ⟨n, v⟩ := p
      by_cases hns : n = "slot"
      · simp only [addAttrs, if_pos hns]
        exact ih m fun q hq => h q (List.mem_cons_of_mem _ hq)
      · simp only [addAttrs, if_neg hns]
        rcases h (n, v) (List.mem_cons_self _ _) with hs | ⟨h1, h2⟩
        · exact absurd hs hns
        · rw [ih _ fun q hq => h q (List.mem_cons_of_mem _ hq),
            objGet_objSet_ne _ (toCamelCase n) k _ (fun he => h2 he.symm),
            objGet_objSet_ne m n k _ (fun he => h1 he.symm)]

/-- If some attribute in the list writes the key `k` and every attribute
that writes `k` carries the value `v`, the attribute-copy loop ends with
`k` bound to `v`. -/
theorem addAttrs_objGet_hit (attrs : List (String × String))
    (m : List (String × PVal)) (k v : String)
    (hex : ∃ p ∈ attrs, p.1 ≠ "slot" ∧ (p.1 = k ∨ toCamelCase p.1 = k) ∧ p.2 = v)
    (hall : ∀ p ∈ attrs, p.1 ≠ "slot" → (p.1 = k ∨ toCamelCase p.1 = k) → p.2 = v) :
    objGet (addAttrs attrs m) k = some (.pv (.jsStr v)) := by
  induction attrs generalizing m with
  | nil => obtain ⟨p, hp, _⟩ := hex; exact absurd hp (List.not_mem_nil p)
  | cons p rest ih =>
      obtain ⟨n, w⟩ := p
      by_cases hns : n = "slot"
      · simp only [addAttrs, if_pos hns]
        refine ih m ?_ fun q hq => hall q (List.mem_cons_of_mem _ hq)
        obtain ⟨q, hq, hq1, hq2, hq3⟩ := hex
        rcases List.mem_cons.mp hq with rfl | hmem
        · exact absurd hns hq1
        · exact ⟨q, hmem, hq1, hq2, hq3⟩
      · simp only [addAttrs, if_neg hns]
        by_cases hhit : n = k ∨ toCamelCase n = k
        · have hw : w = v := hall (n, w) (List.mem_cons_self _ _) hns hhit
          subst hw
          by_cases hrest : ∃ p ∈ rest, p.1 ≠ "slot" ∧ (p.1 = k ∨ toCamelCase p.1 = k) ∧ p.2 = w
          · exact ih _ hrest fun q hq => hall q (List.mem_cons_of_mem _ hq)
          · push_neg at hrest
            have hskip : ∀ q ∈ rest, q.1 = "slot" ∨ (q.1 ≠ k ∧ toCamelCase q.1 ≠ k) := by
              intro q hq
              by_cases hqs : q.1 = "slot"
              · exact Or.inl hqs
              · refine Or.inr ⟨fun he => ?_, fun he => ?_⟩
                · exact hrest q hq hqs (Or.inl he)
                    (hall q (List.mem_cons_of_mem _ hq) hqs (Or.inl he))
                · exact hrest q hq hqs (Or.inr he)
                    (hall q (List.mem_cons_of_mem _ hq) hqs (Or.inr he))
            rw [addAttrs_objGet_skip rest _ k hskip]
            rcases hhit with h1 | h2
            · subst h1
              by_cases hc : toCamelCase n = n
              · rw [hc, objGet_objSet_same]
              · rw [objGet_objSet_ne _ (toCamelCase n) n _ (fun he => hc he.symm),
                  objGet_objSet_same]
            · rw [← h2, objGet_objSet_same]
        · push_neg at hhit
          refine ih _ ?_ fun q hq => hall q (List.mem_cons_of_mem _ hq)
          obtain ⟨q, hq, hq1, hq2, hq3⟩ := hex
          rcases List.mem_cons.mp hq with rfl | hmem
          · rcases hq2 with h1 | h2
            · exact absurd h1 hhit.1
            · exact absurd h2 hhit.2
          · exact ⟨q, hmem, hq1, hq2, hq3⟩

/-- If no child carries the slot name `k`, the slot-routing loop leaves the
key `k` untouched. -/
theorem addSlotProps_objGet_skip (cns : List DomNode)
    (m : List (String × PVal)) (k : String)
    (h : ∀ c ∈ cns, domSlot c ≠ k) :
    objGet (addSlotProps cns m) k = objGet m k := by
  induction cns generalizing m with
  | nil => rfl
  | cons c rest ih =>
      have hrest := ih m fun d hd => h d (List.mem_cons_of_mem _ hd)
      by_cases hc : domSlot c ≠ ""
      · simp only [addSlotProps, if_pos hc]
        rw [objGet_objSet_ne _ _ _ _ (Ne.symm (h c (List.mem_cons_self _ _))), hrest]
      · simp only [addSlotProps, if_neg hc]
        exact hrest

/-- The first (smallest-index) child carrying a given slot name determines
the slot entry: it is processed last by the downward loop and its named
`Slot` wrapper wins. -/
theorem addSlotProps_objGet_first (pre post : List DomNode) (c : DomNode)
    (m : List (String × PVal)) (s : String)
    (hs : domSlot c = s) (hne : s ≠ "")
    (hpre : ∀ d ∈ pre, domSlot d ≠ s) :
    objGet (addSlotProps (pre ++ c :: post) m) s
      = some (.pnode (slotWrapOne s (toVdom c none))) := by
  induction pre generalizing m with
  | nil =>
      simp only [List.nil_append, addSlotProps, hs, if_pos hne]
      exact objGet_objSet_same _ _ _
  | cons d pre1 ih =>
      have hd : domSlot d ≠ s := hpre d (List.mem_cons_self _ _)
      have ih1 := ih m fun e he => hpre e (List.mem_cons_of_mem _ he)
      rw [List.cons_append]
      by_cases hde : domSlot d ≠ ""
      · simp only [addSlotProps, if_pos hde]
        rw [objGet_objSet_ne _ (domSlot d) s _ (Ne.symm hd)]
        exact ih1
      · simp only [addSlotProps, if_neg hde]
        exact ih1

/-- The children array is an index-preserving map over the child nodes. -/
theorem projectChildren_eq_map (cns : List DomNode) :
    projectChildren cns
      = cns.map (fun c => if domSlot c ≠ "" then VTree.vhole else toVdom c none) := by
  induction cns with
  | nil => rfl
  | cons c rest ih => simp [projectChildren, ih]

/-- The props of a projected element node do not depend on the `nodeName`
argument. -/
theorem vtreeProps_toVdom_element (nodeName : String)
    (attrs : List (String × String)) (cns : List DomNode) (tag : Option VTag) :
    vtreeProps (toVdom (.element nodeName attrs cns) tag) = toVdomProps attrs cns := by
  cases tag <;> simp [toVdom, vtreeProps, toVdomProps]

theorem attrs_attributeChangedCallback (st : ElementState) (n : String) (o v : JsVal) :
    (attributeChangedCallback st n o v).attrs = st.attrs := by
  cases hv : st.vdom <;> simp [attributeChangedCallback, hv]

theorem props_attributeChangedCallback (st : ElementState) (n : String) (o v : JsVal) :
    (attributeChangedCallback st n o v).props = st.props := by
  cases hv : st.vdom <;> simp [attributeChangedCallback, hv]

theorem attrs_propertySet (st : ElementState) (name : String) (v : JsVal) :
    (propertySet st name v).attrs
      = if reflectsToAttribute v then objSet st.attrs name (jsString v) else st.attrs := by
  unfold propertySet
  by_cases hr : reflectsToAttribute v
  · rw [if_pos hr, if_pos hr]
    cases hv : st.vdom <;> simp [hv, attrs_attributeChangedCallback]
  · rw [if_neg hr, if_neg hr]
    cases hv : st.vdom <;> simp [hv, attrs_attributeChangedCallback]

/-- The prop map of a clone-with-overrides by the two-key delta binds both
the literal and the camelCase key to the delta value, whatever was there
before. -/
theorem objGet_mergeProps_attrDelta (p : List (String × PVal)) (name : String) (u : JsVal) :
    objGet (mergeProps p (attrDelta name u)) name = some (.pv u) ∧
    objGet (mergeProps p (attrDelta name u)) (toCamelCase name) = some (.pv u) := by
  by_cases hc : toCamelCase name = name
  · have hdelta : attrDelta name u = [(name, .pv u)] := by
      simp [attrDelta, objSet, hc]
    rw [hdelta]
    simp only [mergeProps, List.foldl]
    exact ⟨objGet_objSet_same _ _ _, by rw [hc]; exact objGet_objSet_same _ _ _⟩
  · have hnc1 : name ≠ toCamelCase name := fun he => hc he.symm
    have hdelta : attrDelta name u = [(name, .pv u), (toCamelCase name, .pv u)] := by
      simp [attrDelta, objSet, hnc1]
    rw [hdelta]
    simp only [mergeProps, List.foldl]
    refine ⟨?_, objGet_objSet_same _ _ _⟩
    have hnc : name ≠ toCamelCase name := fun he => hc he.symm
    rw [objGet_objSet_ne _ (toCamelCase name) name _ hnc]
    exact objGet_objSet_same _ _ _

/-- Claim C1 (the code diverges from it): with `propNames` omitted, the
source keeps both the class's observed-attribute list and the
accessor-definition list equal to the omitted argument itself — it never
falls back to the definition's declared observed-attribute list or to the
keys of its prop-type map, while the specified derivation does. -/
theorem register_propNames_derivation_missing :
    observedAttributes none = none ∧
    propsToDefine none = none ∧
    specDerivedPropNames none (some ["label"]) (some ["count"]) = some ["label"] ∧
    specDerivedPropNames none none (some ["count"]) = some ["count"] ∧
    propsToDefine none ≠ specDerivedPropNames none (some ["label"]) (some ["count"]) := by
  refine ⟨rfl, rfl, rfl, rfl, ?_⟩
  simp [propsToDefine, observedAttributes, specDerivedPropNames]

/-- Claim C2: a nodeType-3 text node given to the light-DOM projector
projects to its literal character data, verbatim, and every node that is
neither such a text node nor an element node projects to null. -/
theorem toVdom_text_and_other_nodes :
    (∀ (data : String) (tag : Option VTag), toVdom (.textComment data) tag = .vtext data) ∧
    (∀ tag : Option VTag, toVdom .other tag = .vnull) :=
  ⟨fun _ _ => rfl, fun _ => rfl⟩

/-- Claim C7: an attribute-change notification arriving before any render
(no stored tree) is a benign no-op — the whole instance state, in
particular the stored tree, the pending props and the root content, is
unchanged. -/
theorem attributeChangedCallback_before_render_noop (st : ElementState)
    (name : String) (oldValue newValue : JsVal) (h : st.vdom = none) :
    attributeChangedCallback st name oldValue newValue = st := by
  simp [attributeChangedCallback, h]

theorem attributeChangedCallback_before_render_noop_witness :
    (freshState none []).vdom = none ∧
    attributeChangedCallback (freshState none []) "label" .jsNull (.jsStr "x")
        = freshState none [] :=
  ⟨rfl, attributeChangedCallback_before_render_noop (freshState none []) "label"
    .jsNull (.jsStr "x") rfl⟩

/-- Claim C8: disconnecting (which renders an empty tree into the root and
clears the stored tree) and then reconnecting yields exactly the render
tree — and root content — that a first-time connection produces from the
same light DOM, the same pending property values and the same attributes. -/
theorem reconnect_equals_fresh_connect (st : ElementState) (nodeName : String)
    (childNodes : List DomNode) (context : JsVal) :
    (connectedCallback (disconnectedCallback st) nodeName childNodes context).vdom
        = (connectedCallback (freshState st.props st.attrs) nodeName childNodes context).vdom ∧
    (connectedCallback (disconnectedCallback st) nodeName childNodes context).rootContent
        = (connectedCallback (freshState st.props st.attrs) nodeName childNodes context).rootContent :=
  ⟨rfl, rfl⟩

/-- Claim C3: after a render, an attribute-change notification whose new
value is the host's `null` removal sentinel produces a two-key prop delta
binding both the literal name and its camelCase equivalent to `undefined`
(not `null`), merges it into the stored tree via the clone-with-overrides
operation, and synchronously re-renders the merged tree into the root. -/
theorem attributeChangedCallback_attribute_removal (st : ElementState)
    (tg : VTag) (p : List (String × PVal)) (c : List VTree)
    (name : String) (oldValue : JsVal)
    (h : st.vdom = some (.velem tg p c)) :
    (attributeChangedCallback st name oldValue .jsNull).vdom
        = some (cloneElement (.velem tg p c) (attrDelta name .jsUndefined)) ∧
    (attributeChangedCallback st name oldValue .jsNull).rootContent
        = (attributeChangedCallback st name oldValue .jsNull).vdom ∧
    objGet (vtreeProps (cloneElement (.velem tg p c) (attrDelta name .jsUndefined))) name
        = some (.pv .jsUndefined) ∧
    objGet (vtreeProps (cloneElement (.velem tg p c) (attrDelta name .jsUndefined)))
        (toCamelCase name) = some (.pv .jsUndefined) := by
  have hnorm : normalizeNull .jsNull = .jsUndefined := rfl
  refine ⟨?_, ?_, (objGet_mergeProps_attrDelta p name .jsUndefined).1,
    (objGet_mergeProps_attrDelta p name .jsUndefined).2⟩
  · simp [attributeChangedCallback, h, hnorm]
  · simp [attributeChangedCallback, h]

theorem attributeChangedCallback_attribute_removal_witness :
    (ElementState.mk (some (.velem .contextProvider [("dataX", .pv (.jsStr "1"))] []))
        none [] none).vdom
      = some (.velem .contextProvider [("dataX", .pv (.jsStr "1"))] []) ∧
    ((attributeChangedCallback
        (ElementState.mk (some (.velem .contextProvider [("dataX", .pv (.jsStr "1"))] []))
          none [] none) "data-x" (.jsStr "1") .jsNull).vdom
        = some (cloneElement (.velem .contextProvider [("dataX", .pv (.jsStr "1"))] [])
            (attrDelta "data-x" .jsUndefined)) ∧
      (attributeChangedCallback
        (ElementState.mk (some (.velem .contextProvider [("dataX", .pv (.jsStr "1"))] []))
          none [] none) "data-x" (.jsStr "1") .jsNull).rootContent
        = (attributeChangedCallback
            (ElementState.mk (some (.velem .contextProvider [("dataX", .pv (.jsStr "1"))] []))
              none [] none) "data-x" (.jsStr "1") .jsNull).vdom ∧
      objGet (vtreeProps (cloneElement (.velem .contextProvider [("dataX", .pv (.jsStr "1"))] [])
          (attrDelta "data-x" .jsUndefined))) "data-x" = some (.pv .jsUndefined) ∧
      objGet (vtreeProps (cloneElement (.velem .contextProvider [("dataX", .pv (.jsStr "1"))] [])
          (attrDelta "data-x" .jsUndefined))) (toCamelCase "data-x") = some (.pv .jsUndefined)) :=
  ⟨rfl, attributeChangedCallback_attribute_removal _ .contextProvider
    [("dataX", .pv (.jsStr "1"))] [] "data-x" (.jsStr "1") rfl⟩

/-- Claim C4: after a render, a property write routes through the
attribute-change path exactly as if the attribute had changed to the
assigned value (same stored tree, same synchronously re-rendered root
content); afterwards, a nullish or primitive string/boolean/number value
is mirrored onto the DOM attribute as its string coercion, and any other
value mutates no attribute. -/
theorem propertySet_after_render (st : ElementState) (tr : VTree)
    (name : String) (v : JsVal) (h : st.vdom = some tr) :
    (propertySet st name v).vdom = (attributeChangedCallback st name .jsNull v).vdom ∧
    (propertySet st name v).rootContent
        = (attributeChangedCallback st name .jsNull v).rootContent ∧
    (reflectsToAttribute v = true →
      objGet (propertySet st name v).attrs name = some (jsString v)) ∧
    (reflectsToAttribute v = false → (propertySet st name v).attrs = st.attrs) := by
  refine ⟨?_, ?_, ?_, ?_⟩
  · simp only [propertySet, h]
    split <;> rfl
  · simp only [propertySet, h]
    split <;> rfl
  · intro hr
    rw [attrs_propertySet, if_pos hr]
    exact objGet_objSet_same _ _ _
  · intro hr
    rw [attrs_propertySet, if_neg (by simp [hr])]

theorem propertySet_after_render_witness :
    (ElementState.mk (some (.velem .contextProvider [] [])) none [] none).vdom
        = some (.velem .contextProvider [] []) ∧
    ((propertySet (ElementState.mk (some (.velem .contextProvider [] [])) none [] none)
        "count" (.jsNum "5")).vdom
      = (attributeChangedCallback
          (ElementState.mk (some (.velem .contextProvider [] [])) none [] none)
          "count" .jsNull (.jsNum "5")).vdom ∧
     (propertySet (ElementState.mk (some (.velem .contextProvider [] [])) none [] none)
        "count" (.jsNum "5")).rootContent
      = (attributeChangedCallback
          (ElementState.mk (some (.velem .contextProvider [] [])) none [] none)
          "count" .jsNull (.jsNum "5")).rootContent ∧
     (reflectsToAttribute (.jsNum "5") = true →
       objGet (propertySet (ElementState.mk (some (.velem .contextProvider [] [])) none [] none)
          "count" (.jsNum "5")).attrs "count" = some (jsString (.jsNum "5"))) ∧
     (reflectsToAttribute (.jsNum "5") = false →
       (propertySet (ElementState.mk (some (.velem .contextProvider [] [])) none [] none)
          "count" (.jsNum "5")).attrs
         = (ElementState.mk (some (.velem .contextProvider [] [])) none [] none).attrs)) :=
  ⟨rfl, propertySet_after_render _ (.velem .contextProvider [] []) "count" (.jsNum "5") rfl⟩

/-- Claim C9: assigning `null` or `undefined` to a declared property sets
the mirrored attribute to the literal string "null" or "undefined"
respectively, and no property write ever removes an attribute from the
element (every attribute key present before the write is still present
afterwards). -/
theorem propertySet_nullish_literal_mirror (st : ElementState) (name : String) :
    objGet (propertySet st name .jsNull).attrs name = some "null" ∧
    objGet (propertySet st name .jsUndefined).attrs name = some "undefined" ∧
    (∀ (v : JsVal) (k : String), (objGet st.attrs k).isSome →
      (objGet (propertySet st name v).attrs k).isSome) := by
  refine ⟨?_, ?_, ?_⟩
  · rw [attrs_propertySet, if_pos (show reflectsToAttribute .jsNull = true from rfl)]
    exact objGet_objSet_same _ _ _
  · rw [attrs_propertySet, if_pos (show reflectsToAttribute .jsUndefined = true from rfl)]
    exact objGet_objSet_same _ _ _
  · intro v k hk
    rw [attrs_propertySet]
    split
    · exact isSome_objGet_objSet _ _ _ _ hk
    · exact hk

theorem propertySet_nullish_literal_mirror_witness :
    (objGet (freshState none [("x", "1")]).attrs "x").isSome ∧
    (objGet (propertySet (freshState none [("x", "1")]) "label" (.jsObj 0)).attrs "x").isSome ∧
    objGet (propertySet (freshState none [("x", "1")]) "label" .jsNull).attrs "label"
        = some "null" :=
  ⟨rfl,
    (propertySet_nullish_literal_mirror (freshState none [("x", "1")]) "label").2.2
      (.jsObj 0) "x" rfl,
    (propertySet_nullish_literal_mirror (freshState none [("x", "1")]) "label").1⟩

/-- Claim C10: no lifecycle transition, and no property write made after a
render has occurred, ever clears or updates the pending-props store; hence
after a disconnect (stored tree cleared) the property getter reads from the
pending-props store exactly as it stood before the first connection, not
from the last rendered tree. -/
theorem pendingProps_frame_invariant (st : ElementState) (nodeName : String)
    (childNodes : List DomNode) (context : JsVal) (name : String)
    (oldValue v : JsVal) (tr : VTree) (h : st.vdom = some tr) :
    (connectedCallback st nodeName childNodes context).props = st.props ∧
    (attributeChangedCallback st name oldValue v).props = st.props ∧
    (disconnectedCallback st).props = st.props ∧
    (propertySet st name v).props = st.props ∧
    propertyGet (disconnectedCallback st) name = objGet (st.props.getD []) name := by
  refine ⟨rfl, props_attributeChangedCallback st name oldValue v, rfl, ?_, rfl⟩
  simp only [propertySet, h]
  split
  · simp [props_attributeChangedCallback]
  · simp [props_attributeChangedCallback]

theorem pendingProps_frame_invariant_witness :
    (ElementState.mk (some (.velem .contextProvider [("label", .pv (.jsStr "rendered"))] []))
        (some [("label", .pv (.jsStr "pre"))]) [] none).vdom
      = some (.velem .contextProvider [("label", .pv (.jsStr "rendered"))] []) ∧
    propertyGet (disconnectedCallback
        (ElementState.mk (some (.velem .contextProvider [("label", .pv (.jsStr "rendered"))] []))
          (some [("label", .pv (.jsStr "pre"))]) [] none)) "label"
      = objGet [("label", PVal.pv (.jsStr "pre"))] "label" :=
  ⟨rfl,
    (pendingProps_frame_invariant _ "X-EL" [] .jsUndefined "label" .jsNull .jsNull
      (.velem .contextProvider [("label", .pv (.jsStr "rendered"))] []) rfl).2.2.2.2⟩

/-- Claim C5: for a projected element node, each attribute is copied into
the prop map under both its literal (possibly hyphenated) name and its
camelCase equivalent — witnessed here both as the literal copy step of the
attribute loop (last two conjuncts) and as the final prop-map lookups
(first two conjuncts, under the DOM-realistic side conditions that no
other attribute and no slotted child writes the same two keys with a
different value) — while an attribute literally named `slot` contributes
nothing to the prop map. -/
theorem toVdom_attribute_copy (nodeName : String) (attrs : List (String × String))
    (cns : List DomNode) (tag : Option VTag) (n v : String)
    (hmem : (n, v) ∈ attrs) (hslot : n ≠ "slot")
    (hlit : ∀ p ∈ attrs, p.1 ≠ "slot" → (p.1 = n ∨ toCamelCase p.1 = n) → p.2 = v)
    (hcam : ∀ p ∈ attrs, p.1 ≠ "slot" →
      (p.1 = toCamelCase n ∨ toCamelCase p.1 = toCamelCase n) → p.2 = v)
    (hchild : ∀ c ∈ cns, domSlot c ≠ n ∧ domSlot c ≠ toCamelCase n) :
    objGet (vtreeProps (toVdom (.element nodeName attrs cns) tag)) n
        = some (.pv (.jsStr v)) ∧
    objGet (vtreeProps (toVdom (.element nodeName attrs cns) tag)) (toCamelCase n)
        = some (.pv (.jsStr v)) ∧
    (∀ (w : String) (rest : List (String × String)) (m : List (String × PVal)),
      addAttrs (("slot", w) :: rest) m = addAttrs rest m) ∧
    (∀ (rest : List (String × String)) (m : List (String × PVal)),
      addAttrs ((n, v) :: rest) m
        = addAttrs rest
            (objSet (objSet m n (.pv (.jsStr v))) (toCamelCase n) (.pv (.jsStr v)))) := by
  refine ⟨?_, ?_, ?_, ?_⟩
  · rw [vtreeProps_toVdom_element]
    unfold toVdomProps
    rw [addSlotProps_objGet_skip _ _ _ (fun c hc => (hchild c hc).1)]
    exact addAttrs_objGet_hit attrs [] n v ⟨(n, v), hmem, hslot, Or.inl rfl, rfl⟩ hlit
  · rw [vtreeProps_toVdom_element]
    unfold toVdomProps
    rw [addSlotProps_objGet_skip _ _ _ (fun c hc => (hchild c hc).2)]
    exact addAttrs_objGet_hit attrs [] (toCamelCase n) v
      ⟨(n, v), hmem, hslot, Or.inr rfl, rfl⟩ hcam
  · intro w rest m
    simp [addAttrs]
  · intro rest m
    simp [addAttrs, hslot]

theorem toVdom_attribute_copy_witness :
    (("data-x", "1") ∈ [("data-x", "1"), ("slot", "s")]) ∧
    ("data-x" : String) ≠ "slot" ∧
    (∀ p ∈ [("data-x", "1"), ("slot", "s")], p.1 ≠ "slot" →
      (p.1 = "data-x" ∨ toCamelCase p.1 = "data-x") → p.2 = "1") ∧
    (∀ p ∈ [("data-x", "1"), ("slot", "s")], p.1 ≠ "slot" →
      (p.1 = toCamelCase "data-x" ∨ toCamelCase p.1 = toCamelCase "data-x") → p.2 = "1") ∧
    (∀ c ∈ ([] : List DomNode), domSlot c ≠ "data-x" ∧ domSlot c ≠ toCamelCase "data-x") ∧
    objGet (vtreeProps (toVdom (.element "DIV" [("data-x", "1"), ("slot", "s")] []) none))
        "data-x" = some (.pv (.jsStr "1")) ∧
    objGet (vtreeProps (toVdom (.element "DIV" [("data-x", "1"), ("slot", "s")] []) none))
        (toCamelCase "data-x") = some (.pv (.jsStr "1")) :=
  ⟨by decide, by decide, by decide, by decide, by decide,
    (toVdom_attribute_copy "DIV" [("data-x", "1"), ("slot", "s")] [] none "data-x" "1"
      (by decide) (by decide) (by decide) (by decide) (by decide)).1,
    (toVdom_attribute_copy "DIV" [("data-x", "1"), ("slot", "s")] [] none "data-x" "1"
      (by decide) (by decide) (by decide) (by decide) (by decide)).2.1⟩

/-- Claim C6: a child carrying a non-empty slot name is wrapped in a named
Slot forwarder and installed into the parent's prop map under that slot
name (the first child with a given name wins) while its position in the
children array is left a hole; every non-slotted child lands in the
children array at its original index, preserving document order; and only
a topmost call (non-null `nodeName`) wraps its children array once in an
unnamed Slot forwarder, a nested call never does. -/
theorem toVdom_slot_routing (nodeName : String) (attrs : List (String × String))
    (pre post : List DomNode) (c : DomNode) (s : String) (tag : Option VTag)
    (hs : domSlot c = s) (hne : s ≠ "")
    (hpre : ∀ d ∈ pre, domSlot d ≠ s) :
    objGet (vtreeProps (toVdom (.element nodeName attrs (pre ++ c :: post)) tag)) s
        = some (.pnode (slotWrapOne s (toVdom c none))) ∧
    projectChildren (pre ++ c :: post)
        = projectChildren pre ++ VTree.vhole :: projectChildren post ∧
    (∀ (cns : List DomNode) (i : Nat) (hi : i < cns.length), domSlot cns[i] = "" →
      (projectChildren cns)[i]? = some (toVdom cns[i] none)) ∧
    (∀ (cns : List DomNode) (tg : VTag),
      toVdom (.element nodeName attrs cns) (some tg)
        = .velem tg (toVdomProps attrs cns) [.velem .slotComp [] (projectChildren cns)]) ∧
    (∀ cns : List DomNode,
      toVdom (.element nodeName attrs cns) none
        = .velem (.htmlTag (strToLower nodeName)) (toVdomProps attrs cns)
            (projectChildren cns)) := by
  refine ⟨?_, ?_, ?_, ?_, ?_⟩
  · rw [vtreeProps_toVdom_element]
    unfold toVdomProps
    exact addSlotProps_objGet_first pre post c _ s hs hne hpre
  · rw [projectChildren_eq_map, projectChildren_eq_map, projectChildren_eq_map,
      List.map_append, List.map_cons]
    rw [hs, if_pos hne]
  · intro cns i hi hzero
    rw [projectChildren_eq_map, List.getElem?_map, List.getElem?_eq_getElem hi]
    simp [hzero]
  · intro cns tg
    simp [toVdom, toVdomProps]
  · intro cns
    simp [toVdom, toVdomProps]

theorem toVdom_slot_routing_witness :
    domSlot (.element "SPAN" [("slot", "body")] []) = "body" ∧
    ("body" : String) ≠ "" ∧
    (∀ d ∈ ([] : List DomNode), domSlot d ≠ "body") ∧
    objGet (vtreeProps (toVdom
        (.element "X-OUTER" [] ([] ++ DomNode.element "SPAN" [("slot", "body")] [] :: []))
        (some .component))) "body"
      = some (.pnode (slotWrapOne "body"
          (toVdom (.element "SPAN" [("slot", "body")] []) none))) :=
  ⟨by decide, by decide, by decide,
    (toVdom_slot_routing "X-OUTER" [] [] [] (.element "SPAN" [("slot", "body")] [])
      "body" (some .component) (by decide) (by decide) (by decide)).1⟩

end PreactCE
